import Mathlib

/-!
Verification development for the single-particle mass-spectrometry pipeline
(data_calibrator.py, data_detector.py, data_selector.py).

The numeric core is embedded shallowly: numpy arrays become lists of real
numbers, elementwise array arithmetic becomes `List.zipWith` / `List.map`,
and `np.sum` becomes `List.sum`.  Real division by zero is `0` in this
embedding (the standard real-number convention); where a claim is about a
division-by-zero path this convention is called out explicitly.
-/

namespace DataCalibrator

/-- Weighted mean, from `m(x, w)` in data_calibrator.py:
`np.sum(x * w) / np.sum(w)`. -/
noncomputable def m (x w : List ℝ) : ℝ :=
  (List.zipWith (fun a b => a * b) x w).sum / w.sum

/-- Weighted covariance, from `cov(x, y, w)` in data_calibrator.py:
`np.sum(w * (x - m(x, w)) * (y - m(y, w))) / np.sum(w)`; the elementwise
product associates to the left as numpy evaluates it. -/
noncomputable def cov (x y w : List ℝ) : ℝ :=
  (List.zipWith (fun a b => a * b)
    (List.zipWith (fun a b => a * b) w (x.map (fun v => v - m x w)))
    (y.map (fun v => v - m y w))).sum / w.sum

/-- Weighted correlation, from `corr(x, y, w)` in data_calibrator.py:
`cov(x, y, w) / np.sqrt(cov(x, x, w) * cov(y, y, w))`. -/
noncomputable def corr (x y w : List ℝ) : ℝ :=
  cov x y w / Real.sqrt (cov x x w * cov y y w)

/-- Unweighted population standard deviation, from `np.std(a)` (ddof = 0):
the square root of the mean of the squared deviations from the plain mean. -/
noncomputable def npstd (a : List ℝ) : ℝ :=
  Real.sqrt ((a.map (fun v => (v - a.sum / a.length) ^ 2)).sum / a.length)

/-- Weighted least squares, from `wls(x, y, w)` in data_calibrator.py:
`c = corr(x, y, w); slope = c * np.std(y) / np.std(x);`
`intercept = m(y, w) - m(x, w) * slope; return slope, intercept, c ** 2`. -/
noncomputable def wls (x y w : List ℝ) : ℝ × ℝ × ℝ :=
  let c := corr x y w
  let slope := c * npstd y / npstd x
  (slope, m y w - m x w * slope, c ^ 2)

/-- Error taxonomy used by the spec for the weighted-statistics layer. -/
inductive StatError
  | degenerateInput
deriving DecidableEq

open Classical

/-- Checked correlation following the spec's words (section 4.5): fail with
`DegenerateInputError` when the total weight is zero or either
self-covariance is zero, otherwise behave as the source's `corr`.  Stated
only for comparison with the source's unchecked `corr`. -/
noncomputable def corrSpec (x y w : List ℝ) : Except StatError ℝ :=
  if w.sum = 0 ∨ cov x x w = 0 ∨ cov y y w = 0 then .error .degenerateInput
  else .ok (corr x y w)

end DataCalibrator

/-- In-memory model of one tab-delimited data file: the header's mass
identifiers (the tokens after the two-word row-counter label
"Push number") and the data rows, each row being the row counter followed
by one value per mass, so the identifier listed k-th (1-based) heads
column k of a row. -/
structure DataFile where
  masses : List ℤ
  rows : List (List ℝ)

namespace DataDetector

/-- Channel index of data_detector.py (also data_viewer.py):
`available = [int(m) for m in f.readline()[:-1].split("\t")[1:]]` followed
by `masses = dict(zip(available, list(range(1, len(available) + 1))))`,
modelled as the association list it zips up. -/
def massesDict (available : List ℤ) : List (ℤ × ℕ) :=
  available.zip ((List.range available.length).map (fun j => j + 1))

/-- Column offset data_detector.py uses for identifier `mm`
(`usecols=[masses[m] for m in LOAD_MASSES]`): the dict lookup, 0 if absent
(the source asserts presence before this lookup ever runs). -/
def detectorOffset (available : List ℤ) (mm : ℤ) : ℕ :=
  ((massesDict available).lookup mm).getD 0

/-- Whole-file column load of data_detector.py: `np.loadtxt` with
`skiprows=1` and `usecols=[masses[m] for m in sel]` keeps, for every data
row in order, exactly the selected identifiers' columns. -/
def loadWhole (f : DataFile) (sel : List ℤ) : List (List ℝ) :=
  f.rows.map (fun r => sel.map (fun mm => r.getD (detectorOffset f.masses mm) 0))

/-- Event integrator of data_detector.py: one scalar per event,
`np.sum(ar[side[0] : side[1], c])` for each `side` in the event list,
applied here to the already-extracted channel column `ar`; the Python
slice `ar[a:b]` (with natural bounds) is `(ar.drop a).take (b - a)`. -/
def sum_I (ar : List ℝ) (events : List (ℕ × ℕ)) : List ℝ :=
  events.map (fun side => ((ar.drop side.1).take (side.2 - side.1)).sum)

/-- Mass conversion of data_detector.py:
`event_mass_interest = (sum_I - X0) / X1 * DT * FLOW / TE`, stated for a
single integrated intensity `I` (the source applies it elementwise to the
vector of integrals). -/
noncomputable def event_mass_interest (I X0 X1 DT FLOW TE : ℝ) : ℝ :=
  (I - X0) / X1 * DT * FLOW / TE

/-- Error taxonomy used by the spec for the mass converter. -/
inductive ConvError
  | calibrationDegenerate
deriving DecidableEq

open Classical

/-- Checked mass conversion following the spec's words (section 4.7):
division by a zero slope is a `CalibrationDegenerateError`.  Stated only
for comparison with the source's unchecked conversion. -/
noncomputable def eventMassSpec (I X0 X1 DT FLOW TE : ℝ) : Except ConvError ℝ :=
  if X1 = 0 then .error .calibrationDegenerate
  else .ok ((I - X0) / X1 * DT * FLOW / TE)

end DataDetector

namespace DataSelector

/-- Line counter of data_selector.py (`line_count`, an mmap readline
loop): the total number of lines of the file, i.e. the header line plus
one line per data row. -/
def line_count (f : DataFile) : ℕ := f.rows.length + 1

/-- Column indices of data_selector.py (`data_selector`):
`columns = [0] + [available_masses.index(int(i)) for i in masses]`, where
`available_masses = first_line.split()[2:]` (the two-word label consumes
two whitespace tokens).  Python's `list.index` (first occurrence) is
`List.indexOf`.  Note: unlike the other components, no `+ 1` follows
`.index`. -/
def selectorColumns (available masses : List ℤ) : List ℕ :=
  0 :: masses.map (fun i => available.indexOf i)

/-- One output row of `data_selector`: `chunk.iloc[:, columns]` projects a
data row (row counter followed by the channel values) onto `columns`. -/
def selectorWriteRow (available sel : List ℤ) (r : List ℝ) : List ℝ :=
  (selectorColumns available sel).map (fun c => r.getD c 0)

/-- The file written by `data_selector`: the header line
`"Push number" ++ sel`, then — chunk by chunk, since
`pd.read_csv(..., chunksize=C)` partitions the data rows into consecutive
blocks — every row projected onto `selectorColumns`.  The chunking is
passed in as an arbitrary consecutive partition (`chunks.flatten = f.rows`
in the theorems), which covers every chunk size at once. -/
def selectorOutput (f : DataFile) (sel : List ℤ)
    (chunks : List (List (List ℝ))) : DataFile :=
  ⟨sel, (chunks.map (fun ch => ch.map (selectorWriteRow f.masses sel))).flatten⟩

/-- Number of chunks `pd.read_csv(..., chunksize=C)` yields for `R` data
rows: the ceiling of R / C. -/
def chunkCount (R C : ℕ) : ℕ := (R + C - 1) / C

/-- Progress values yielded by `data_selector` for `R` data rows and chunk
size `C`: chunk `k` holds the data rows with global indices
`[k*C, min ((k+1)*C) R)`, so its `chunk.index[-1]` is
`min ((k+1)*C) R - 1`, `lines = line_count = R + 1`, and each yield is
`100 - (1 - chunk.index[-1] / lines) * 100`. -/
noncomputable def progressList (R C : ℕ) : List ℝ :=
  (List.range (chunkCount R C)).map (fun k =>
    100 - (1 - ((min ((k + 1) * C) R - 1 : ℕ) : ℝ) / ((R : ℝ) + 1)) * 100)

end DataSelector

namespace DataCalibrator

/-- Plain mean, from `np.mean(a)`. -/
noncomputable def npmean (a : List ℝ) : ℝ := a.sum / a.length

/-- Column offset used by `CalibrationApp.calibrate` in data_calibrator.py:
`usecols=[new_masses.index(mass) + 1]`, with
`new_masses = first_line.split()[2:]` as in the selector. -/
def calibratorOffset (available : List ℤ) (mass : ℤ) : ℕ :=
  available.indexOf mass + 1

/-- The signal column `CalibrationApp.calibrate` loads for `mass`. -/
def signalColumn (f : DataFile) (mass : ℤ) : List ℝ :=
  f.rows.map (fun r => r.getD (calibratorOffset f.masses mass) 0)

/-- Error taxonomy used by the spec for the calibration engine. -/
inductive CalibError
  | insufficientData
  | channelNotFound
deriving DecidableEq

/-- The per-row loop of `CalibrationApp.calibrate`: for each
(file, concentration) row in order, error out as soon as the mass is
absent from a file's header ("Mass ... not in available masses ..."),
otherwise append the concentration, the signal mean (`np.mean(signal)`)
and the signal standard deviation (`np.std(signal)`). -/
noncomputable def collectPoints (mass : ℤ) :
    List (DataFile × ℝ) → Except CalibError (List ℝ × List ℝ × List ℝ)
  | [] => .ok ([], [], [])
  | (f, conc) :: rest =>
    if mass ∈ f.masses then
      match collectPoints mass rest with
      | .error e => .error e
      | .ok (x, y, s) =>
        .ok (conc :: x, npmean (signalColumn f mass) :: y,
          npstd (signalColumn f mass) :: s)
    else .error .channelNotFound

/-- `CalibrationApp.calibrate`: refuse fewer than three rows ("At least
three points are needed for the calibration", the spec's
`InsufficientDataError`) before touching any file, otherwise collect the
per-file points, form `w = 1 / s ** 2` and run `wls`. -/
noncomputable def calibrate (mass : ℤ) (rows : List (DataFile × ℝ)) :
    Except CalibError (ℝ × ℝ × ℝ) :=
  if rows.length < 3 then .error .insufficientData
  else
    match collectPoints mass rows with
    | .error e => .error e
    | .ok (x, y, s) => .ok (wls x y (s.map (fun si => 1 / si ^ 2)))

end DataCalibrator

namespace DataCalibrator

theorem zipWith_mul_self_sum_nonneg (w d : List ℝ) (hw : ∀ a ∈ w, 0 ≤ a) :
    0 ≤ (List.zipWith (fun a b => a * b)
      (List.zipWith (fun a b => a * b) w d) d).sum := by
  induction w generalizing d with
  | nil => simp
  | cons a w ih =>
    cases d with
    | nil => simp
    | cons b d =>
      simp only [List.zipWith_cons_cons, List.sum_cons]
      have h1 : 0 ≤ a * b * b := by
        have ha : 0 ≤ a := hw a (by simp)
        nlinarith [sq_nonneg b]
      have h2 := ih d (fun a ha => hw a (List.mem_cons_of_mem _ ha))
      linarith

theorem cov_self_nonneg (x w : List ℝ) (hw : ∀ a ∈ w, 0 ≤ a)
    (hs : 0 < w.sum) : 0 ≤ cov x x w := by
  unfold cov
  apply div_nonneg _ (le_of_lt hs)
  exact zipWith_mul_self_sum_nonneg w (x.map (fun v => v - m x w)) hw

end DataCalibrator

namespace DataDetector

theorem take_sum_eq_range (l : List ℝ) :
    ∀ n : ℕ, (l.take n).sum = ∑ j in Finset.range n, l.getD j 0 := by
  induction l with
  | nil =>
    intro n
    simp
  | cons a l ih =>
    intro n
    cases n with
    | zero => simp
    | succ n =>
      rw [List.take_succ_cons, List.sum_cons, ih n, Finset.sum_range_succ']
      simp only [List.getD_cons_succ, List.getD_cons_zero]
      exact add_comm _ _

theorem slice_sum (l : List ℝ) (a b : ℕ) :
    ((l.drop a).take (b - a)).sum = ∑ j in Finset.Ico a b, l.getD j 0 := by
  rcases le_or_lt a b with h | h
  · have hsplit : l.take b = l.take a ++ (l.drop a).take (b - a) := by
      have hab : a + (b - a) = b := Nat.add_sub_cancel' h
      rw [← hab, List.take_add, Nat.add_sub_cancel_left]
    have hsum : (l.take b).sum = (l.take a).sum + ((l.drop a).take (b - a)).sum := by
      rw [hsplit, List.sum_append]
    have h1 := take_sum_eq_range l a
    have h2 := take_sum_eq_range l b
    rw [Finset.sum_Ico_eq_sub _ h, ← h1, ← h2]
    linarith
  · have hb : b - a = 0 := Nat.sub_eq_zero_of_le (le_of_lt h)
    rw [hb, Finset.Ico_eq_empty (by omega)]
    simp

end DataDetector

namespace Claims

open DataCalibrator

/-- C1: for equal-length vectors with at least three entries, non-zero total
weight and non-zero (weighted) variance in x and y, `wls` returns exactly
slope = corr(x,y,w) * npstd(y) / npstd(x),
intercept = m(y,w) - m(x,w) * slope, and r^2 = corr(x,y,w)^2, where `m`,
`cov`, `corr` are the weighted mean, covariance and correlation of the
source and `npstd` is the unweighted population standard deviation. -/
theorem C1_wls_formula (x y w : List ℝ)
    (hxy : x.length = y.length) (hyw : y.length = w.length)
    (h3 : 3 ≤ x.length) (hw : w.sum ≠ 0)
    (hx : cov x x w ≠ 0) (hy : cov y y w ≠ 0) :
    wls x y w =
      (corr x y w * npstd y / npstd x,
       m y w - m x w * (corr x y w * npstd y / npstd x),
       corr x y w ^ 2) := rfl

/-- Witness for C1 at x = [0,1,2], y = [1,3,5], w = [1,1,1]. -/
theorem C1_wls_formula_witness :
    ([(0 : ℝ), 1, 2].length = [(1 : ℝ), 3, 5].length ∧
     [(1 : ℝ), 3, 5].length = [(1 : ℝ), 1, 1].length ∧
     3 ≤ [(0 : ℝ), 1, 2].length ∧
     [(1 : ℝ), 1, 1].sum ≠ 0 ∧
     cov [(0 : ℝ), 1, 2] [(0 : ℝ), 1, 2] [(1 : ℝ), 1, 1] ≠ 0 ∧
     cov [(1 : ℝ), 3, 5] [(1 : ℝ), 3, 5] [(1 : ℝ), 1, 1] ≠ 0) ∧
    wls [(0 : ℝ), 1, 2] [(1 : ℝ), 3, 5] [(1 : ℝ), 1, 1] =
      (corr [(0 : ℝ), 1, 2] [(1 : ℝ), 3, 5] [(1 : ℝ), 1, 1] *
         npstd [(1 : ℝ), 3, 5] / npstd [(0 : ℝ), 1, 2],
       m [(1 : ℝ), 3, 5] [(1 : ℝ), 1, 1] -
         m [(0 : ℝ), 1, 2] [(1 : ℝ), 1, 1] *
           (corr [(0 : ℝ), 1, 2] [(1 : ℝ), 3, 5] [(1 : ℝ), 1, 1] *
              npstd [(1 : ℝ), 3, 5] / npstd [(0 : ℝ), 1, 2]),
       corr [(0 : ℝ), 1, 2] [(1 : ℝ), 3, 5] [(1 : ℝ), 1, 1] ^ 2) := by
  refine ⟨⟨rfl, rfl, by norm_num, ?_, ?_, ?_⟩, ?_⟩
  · norm_num
  · simp only [cov, m]
    norm_num
  · simp only [cov, m]
    norm_num
  · exact C1_wls_formula _ _ _ rfl rfl (by norm_num) (by norm_num)
      (by simp only [cov, m]; norm_num) (by simp only [cov, m]; norm_num)

/-- C10: for every value vector x and weight vector w with all weights
nonnegative and positive total weight, the weighted self-covariance
`cov x x w` is nonnegative; hence the argument of the square root in
`corr`, namely `cov x x w * cov y y w`, is nonnegative, so the correlation
never takes the square root of a negative number under these
preconditions. -/
theorem C10_sqrt_arg_nonneg (x y w : List ℝ) (hw : ∀ a ∈ w, 0 ≤ a)
    (hs : 0 < w.sum) :
    0 ≤ cov x x w ∧ 0 ≤ cov x x w * cov y y w := by
  have hx := cov_self_nonneg x w hw hs
  have hy := cov_self_nonneg y w hw hs
  exact ⟨hx, mul_nonneg hx hy⟩

/-- Witness for C10 at x = [0,1], y = [5,7], w = [1,1]. -/
theorem C10_sqrt_arg_nonneg_witness :
    ((∀ a ∈ [(1 : ℝ), 1], 0 ≤ a) ∧ 0 < [(1 : ℝ), 1].sum) ∧
    (0 ≤ cov [(0 : ℝ), 1] [(0 : ℝ), 1] [(1 : ℝ), 1] ∧
     0 ≤ cov [(0 : ℝ), 1] [(0 : ℝ), 1] [(1 : ℝ), 1] *
       cov [(5 : ℝ), 7] [(5 : ℝ), 7] [(1 : ℝ), 1]) := by
  have hw : ∀ a ∈ [(1 : ℝ), 1], 0 ≤ a := by
    intro a ha
    rcases List.mem_cons.mp ha with h | h
    · norm_num [h]
    · simp at h
      norm_num [h]
  have hs : 0 < [(1 : ℝ), 1].sum := by norm_num
  exact ⟨⟨hw, hs⟩, C10_sqrt_arg_nonneg [(0 : ℝ), 1] [(5 : ℝ), 7] _ hw hs⟩

/-- C5 counterexample: the source's weighted statistics perform no
degenerate-input check at all (there is no exception path in `m`, `cov` or
`corr`); at the zero-variance input x = [1,1], y = [2,3], w = [1,1] the
source's `corr` returns the plain numeric value 0 (division by zero in the
real-number embedding), while the behaviour the claim describes
(`corrSpec`) fails with `DegenerateInputError`. -/
theorem C5_counterexample :
    corr [(1 : ℝ), 1] [(2 : ℝ), 3] [(1 : ℝ), 1] = 0 ∧
    corrSpec [(1 : ℝ), 1] [(2 : ℝ), 3] [(1 : ℝ), 1] =
      Except.error StatError.degenerateInput := by
  have hxx : cov [(1 : ℝ), 1] [(1 : ℝ), 1] [(1 : ℝ), 1] = 0 := by
    simp only [cov, m]
    norm_num
  constructor
  · simp [corr, hxx]
  · simp only [corrSpec]
    rw [if_pos (Or.inr (Or.inl hxx))]

/-- C5 amended: on every degenerate input (zero total weight or a zero
self-covariance) the source's `corr` does not fail: it is pure arithmetic
with no error path, and the division by zero makes it return the numeric
value 0 under the real-number embedding (IEEE arithmetic would return a
non-finite float), whereas the spec's checked behaviour `corrSpec` fails
with `DegenerateInputError`. -/
theorem C5_amended (x y w : List ℝ)
    (h : w.sum = 0 ∨ cov x x w = 0 ∨ cov y y w = 0) :
    corr x y w = 0 ∧
    corrSpec x y w = Except.error StatError.degenerateInput := by
  have hcovz : cov x x w = 0 ∨ cov y y w = 0 := by
    rcases h with h | h | h
    · left
      simp [cov, h]
    · left
      exact h
    · right
      exact h
  constructor
  · rcases hcovz with h0 | h0 <;> simp [corr, h0]
  · simp only [corrSpec]
    rw [if_pos h]

open DataDetector in
/-- C7: for every channel and every event sequence, the event integrator
returns one scalar per event in the input order, the i-th scalar being the
sum of the channel's values over the half-open index range
[start_i, end_i) (clipped to the series, out-of-range indices contributing
the default 0); an event whose width collapses (start >= end) contributes
an empty range, hence a sum of exactly zero, without failing. -/
theorem C7_sum_I_halfopen (ar : List ℝ) (events : List (ℕ × ℕ)) :
    (sum_I ar events).length = events.length ∧
    ∀ i : ℕ, (sum_I ar events)[i]? =
      (events[i]?).map (fun side => ∑ j in Finset.Ico side.1 side.2, ar.getD j 0) := by
  constructor
  · simp [sum_I]
  · intro i
    simp only [sum_I, List.getElem?_map]
    cases h : events[i]? with
    | none => rfl
    | some side => simp [slice_sum]

open DataDetector in
/-- C4: with a non-zero slope and positive acquisition constants, the mass
conversion of intensity I is (I - X0) / X1 * DT * FLOW / TE, and converting
the intensity exactly on the calibration line, I = X0 + X1 * c, yields
exactly c * DT * FLOW / TE — the converter is the algebraic inverse of the
calibration line. -/
theorem C4_converter_inverse (c X0 X1 DT FLOW TE : ℝ) (h1 : X1 ≠ 0)
    (hDT : 0 < DT) (hFL : 0 < FLOW) (hTE : 0 < TE) :
    (∀ I, event_mass_interest I X0 X1 DT FLOW TE = (I - X0) / X1 * DT * FLOW / TE) ∧
    event_mass_interest (X0 + X1 * c) X0 X1 DT FLOW TE = c * DT * FLOW / TE := by
  constructor
  · intro I
    rfl
  · have hTE0 : TE ≠ 0 := ne_of_gt hTE
    unfold event_mass_interest
    field_simp

open DataDetector in
/-- Witness for C4 at c = 3, X0 = 1, X1 = 2, DT = 1, FLOW = 1, TE = 1. -/
theorem C4_converter_inverse_witness :
    ((2 : ℝ) ≠ 0 ∧ (0 : ℝ) < 1 ∧ (0 : ℝ) < 1 ∧ (0 : ℝ) < 1) ∧
    ((∀ I : ℝ, event_mass_interest I 1 2 1 1 1 = (I - 1) / 2 * 1 * 1 / 1) ∧
     event_mass_interest (1 + 2 * 3) 1 2 1 1 1 = 3 * 1 * 1 / 1) := by
  refine ⟨⟨by norm_num, by norm_num, by norm_num, by norm_num⟩, ?_⟩
  exact C4_converter_inverse 3 1 2 1 1 1 (by norm_num) (by norm_num)
    (by norm_num) (by norm_num)

open DataDetector in
/-- C6 counterexample: the source's mass conversion has no slope check and
no error path at all; at slope X1 = 0 with I = 5, X0 = 1 and unit
acquisition constants it returns the plain numeric value 0 (division by
zero in the real-number embedding; IEEE arithmetic would give a non-finite
float), while the behaviour the claim describes (`eventMassSpec`) fails
with `CalibrationDegenerateError`. -/
theorem C6_counterexample :
    event_mass_interest 5 1 0 1 1 1 = 0 ∧
    eventMassSpec 5 1 0 1 1 1 = Except.error ConvError.calibrationDegenerate := by
  constructor
  · simp [event_mass_interest]
  · simp [eventMassSpec]

open DataDetector in
/-- C6 amended: for every intensity and acquisition constants, conversion
with slope 0 does not fail: the source expression is pure arithmetic, and
under the real-number embedding the division by the zero slope makes it
return the numeric value 0, whereas the spec's checked behaviour
(`eventMassSpec`) fails with `CalibrationDegenerateError`. -/
theorem C6_amended (I X0 DT FLOW TE : ℝ) :
    event_mass_interest I X0 0 DT FLOW TE = 0 ∧
    eventMassSpec I X0 0 DT FLOW TE = Except.error ConvError.calibrationDegenerate := by
  constructor
  · simp [event_mass_interest]
  · simp [eventMassSpec]

/-- Witness for C5's amended claim at x = [1,1], y = [2,3], w = [1,1]. -/
theorem C5_amended_witness :
    ([(1 : ℝ), 1].sum = 0 ∨ cov [(1 : ℝ), 1] [(1 : ℝ), 1] [(1 : ℝ), 1] = 0 ∨
       cov [(2 : ℝ), 3] [(2 : ℝ), 3] [(1 : ℝ), 1] = 0) ∧
    (corr [(1 : ℝ), 1] [(2 : ℝ), 3] [(1 : ℝ), 1] = 0 ∧
     corrSpec [(1 : ℝ), 1] [(2 : ℝ), 3] [(1 : ℝ), 1] =
       Except.error StatError.degenerateInput) := by
  have hxx : cov [(1 : ℝ), 1] [(1 : ℝ), 1] [(1 : ℝ), 1] = 0 := by
    simp only [cov, m]
    norm_num
  exact ⟨Or.inr (Or.inl hxx), C5_amended _ _ _ (Or.inr (Or.inl hxx))⟩

end Claims

namespace Claims

/-- C2 refutation at a concrete header: for the header whose identifier
list is [142, 175], the channel index of data_detector.py and the column
choice of data_calibrator.py both map the 1st listed identifier 142 to
column offset 1 (the column headed by 142), as the claim states, but
data_selector.py computes `columns = [0] + [available.index(m)]`, i.e.
[0, 0] for the request [142]: it reads dataframe column 0 — the
row-counter column — instead of the column headed by 142.  The selector is
off by one against the claim and against the other two components. -/
theorem C2_selector_off_by_one :
    DataDetector.detectorOffset [142, 175] 142 = 1 ∧
    DataCalibrator.calibratorOffset [142, 175] 142 = 1 ∧
    DataSelector.selectorColumns [142, 175] [142] = [0, 0] := by
  refine ⟨?_, ?_, ?_⟩ <;> decide

/-- C3 refutation: for the file with header identifiers [142, 175] and
data rows [0, 10, 20], [1, 11, 21] (row counter first), loading channel
142 in one whole-file pass yields [[10], [11]], but routing the selection
through data_selector (chunk size 1, i.e. the partition into singleton
chunks, whose flattening is exactly the row list) writes the row-counter
column under the header 142, so re-reading the written file yields
[[0], [1]] — the two arrays differ. -/
theorem C3_roundtrip_mismatch :
    ([[[(0 : ℝ), 10, 20]], [[(1 : ℝ), 11, 21]]] : List (List (List ℝ))).flatten =
      (DataFile.mk [142, 175] [[(0 : ℝ), 10, 20], [(1 : ℝ), 11, 21]]).rows ∧
    DataDetector.loadWhole
        (DataFile.mk [142, 175] [[(0 : ℝ), 10, 20], [(1 : ℝ), 11, 21]]) [142] =
      [[(10 : ℝ)], [(11 : ℝ)]] ∧
    DataDetector.loadWhole
        (DataSelector.selectorOutput
          (DataFile.mk [142, 175] [[(0 : ℝ), 10, 20], [(1 : ℝ), 11, 21]]) [142]
          [[[(0 : ℝ), 10, 20]], [[(1 : ℝ), 11, 21]]]) [142] =
      [[(0 : ℝ)], [(1 : ℝ)]] ∧
    ([[(10 : ℝ)], [(11 : ℝ)]] : List (List ℝ)) ≠ [[(0 : ℝ)], [(1 : ℝ)]] := by
  refine ⟨rfl, rfl, rfl, ?_⟩
  norm_num

end Claims

namespace DataCalibrator

theorem collectPoints_ok (mass : ℤ) (rows : List (DataFile × ℝ))
    (h : ∀ p ∈ rows, mass ∈ p.1.masses) :
    ∃ xys, collectPoints mass rows = Except.ok xys := by
  induction rows with
  | nil => exact ⟨([], [], []), rfl⟩
  | cons p rest ih =>
    obtain ⟨f, conc⟩ := p
    obtain ⟨⟨x, y, s⟩, hxys⟩ := ih (fun q hq => h q (List.mem_cons_of_mem _ hq))
    refine ⟨(conc :: x, npmean (signalColumn f mass) :: y,
      npstd (signalColumn f mass) :: s), ?_⟩
    simp only [collectPoints]
    rw [if_pos (h (f, conc) (List.mem_cons_self _ _)), hxys]

end DataCalibrator

namespace Claims

open DataCalibrator in
/-- C9: the calibration engine called with exactly 2 calibration points
fails with `InsufficientDataError` (the length check fires before any
regression or file access), and called with 3 points whose mass is present
in every file's header it succeeds and returns a regression result. -/
theorem C9_calibrate_preconditions :
    (∀ (mass : ℤ) (rows : List (DataFile × ℝ)), rows.length = 2 →
      calibrate mass rows = Except.error CalibError.insufficientData) ∧
    (∀ (mass : ℤ) (rows : List (DataFile × ℝ)), rows.length = 3 →
      (∀ p ∈ rows, mass ∈ p.1.masses) →
      ∃ res, calibrate mass rows = Except.ok res) := by
  constructor
  · intro mass rows h
    simp only [calibrate]
    rw [if_pos (by omega)]
  · intro mass rows h3 hmem
    obtain ⟨⟨x, y, s⟩, hc⟩ := collectPoints_ok mass rows hmem
    refine ⟨wls x y (s.map (fun si => 1 / si ^ 2)), ?_⟩
    simp only [calibrate]
    rw [if_neg (by omega), hc]

open DataCalibrator in
/-- Witness for C9: two concrete points trigger the error; three concrete
collinear points (concentrations 1, 2, 3 with signal means 1, 2, 3 and
signal standard deviation 1, hence positive weights) succeed. -/
theorem C9_calibrate_preconditions_witness :
    (([(DataFile.mk [142] [[0, 0], [1, 2]], (1 : ℝ)),
       (DataFile.mk [142] [[0, 1], [1, 3]], (2 : ℝ))] :
        List (DataFile × ℝ)).length = 2 ∧
     calibrate 142
       [(DataFile.mk [142] [[0, 0], [1, 2]], (1 : ℝ)),
        (DataFile.mk [142] [[0, 1], [1, 3]], (2 : ℝ))] =
       Except.error CalibError.insufficientData) ∧
    (([(DataFile.mk [142] [[0, 0], [1, 2]], (1 : ℝ)),
       (DataFile.mk [142] [[0, 1], [1, 3]], (2 : ℝ)),
       (DataFile.mk [142] [[0, 2], [1, 4]], (3 : ℝ))] :
        List (DataFile × ℝ)).length = 3 ∧
     (∀ p ∈ ([(DataFile.mk [142] [[0, 0], [1, 2]], (1 : ℝ)),
        (DataFile.mk [142] [[0, 1], [1, 3]], (2 : ℝ)),
        (DataFile.mk [142] [[0, 2], [1, 4]], (3 : ℝ))] :
         List (DataFile × ℝ)), (142 : ℤ) ∈ p.1.masses) ∧
     ∃ res, calibrate 142
       [(DataFile.mk [142] [[0, 0], [1, 2]], (1 : ℝ)),
        (DataFile.mk [142] [[0, 1], [1, 3]], (2 : ℝ)),
        (DataFile.mk [142] [[0, 2], [1, 4]], (3 : ℝ))] = Except.ok res) := by
  have hmem : ∀ p ∈ ([(DataFile.mk [142] [[0, 0], [1, 2]], (1 : ℝ)),
      (DataFile.mk [142] [[0, 1], [1, 3]], (2 : ℝ)),
      (DataFile.mk [142] [[0, 2], [1, 4]], (3 : ℝ))] :
       List (DataFile × ℝ)), (142 : ℤ) ∈ p.1.masses := by
    intro p hp
    rcases List.mem_cons.mp hp with h | hp
    · rw [h]; decide
    rcases List.mem_cons.mp hp with h | hp
    · rw [h]; decide
    rcases List.mem_cons.mp hp with h | hp
    · rw [h]; decide
    · simp at hp
  refine ⟨⟨rfl, C9_calibrate_preconditions.1 _ _ rfl⟩,
    ⟨rfl, hmem, C9_calibrate_preconditions.2 _ _ rfl hmem⟩⟩

end Claims

namespace DataSelector

theorem chunkCount_pos (R C : ℕ) (hR : 1 ≤ R) (hC : 1 ≤ C) :
    1 ≤ chunkCount R C := by
  unfold chunkCount
  rw [Nat.le_div_iff_mul_le (by omega : 0 < C)]
  omega

theorem chunkCount_mul_ge (R C : ℕ) (hC : 1 ≤ C) : R ≤ chunkCount R C * C := by
  have hd := Nat.mod_add_div' (R + C - 1) C
  have hm : (R + C - 1) % C < C := Nat.mod_lt _ (by omega)
  unfold chunkCount
  omega

theorem progress_formula_mono (R C a b : ℕ) (hab : a ≤ b) :
    100 - (1 - ((min ((a + 1) * C) R - 1 : ℕ) : ℝ) / ((R : ℝ) + 1)) * 100 ≤
      100 - (1 - ((min ((b + 1) * C) R - 1 : ℕ) : ℝ) / ((R : ℝ) + 1)) * 100 := by
  have hidx : min ((a + 1) * C) R - 1 ≤ min ((b + 1) * C) R - 1 := by
    have h1 : (a + 1) * C ≤ (b + 1) * C := Nat.mul_le_mul_right _ (by omega)
    have h2 : min ((a + 1) * C) R ≤ min ((b + 1) * C) R := min_le_min h1 le_rfl
    omega
  have hc : ((min ((a + 1) * C) R - 1 : ℕ) : ℝ) ≤
      ((min ((b + 1) * C) R - 1 : ℕ) : ℝ) := Nat.cast_le.mpr hidx
  have hpos : (0 : ℝ) < (R : ℝ) + 1 := by positivity
  have hdiv := div_le_div_of_nonneg_right hc hpos.le
  linarith

theorem progress_formula_bounds (R C k : ℕ) (hR : 1 ≤ R) :
    0 ≤ 100 - (1 - ((min ((k + 1) * C) R - 1 : ℕ) : ℝ) / ((R : ℝ) + 1)) * 100 ∧
      100 - (1 - ((min ((k + 1) * C) R - 1 : ℕ) : ℝ) / ((R : ℝ) + 1)) * 100 ≤ 100 := by
  have hidx : min ((k + 1) * C) R - 1 ≤ R := by
    have := min_le_right ((k + 1) * C) R
    omega
  have hpos : (0 : ℝ) < (R : ℝ) + 1 := by positivity
  have hle : ((min ((k + 1) * C) R - 1 : ℕ) : ℝ) ≤ (R : ℝ) + 1 := by
    have h : ((min ((k + 1) * C) R - 1 : ℕ) : ℝ) ≤ (R : ℝ) := Nat.cast_le.mpr hidx
    linarith
  have hd0 : 0 ≤ ((min ((k + 1) * C) R - 1 : ℕ) : ℝ) / ((R : ℝ) + 1) := by positivity
  have hd1 : ((min ((k + 1) * C) R - 1 : ℕ) : ℝ) / ((R : ℝ) + 1) ≤ 1 :=
    (div_le_one hpos).mpr hle
  constructor <;> linarith

theorem progressList_getLast (R C : ℕ) (hR : 1 ≤ R) (hC : 1 ≤ C) :
    (progressList R C).getLast? =
      some (100 - (1 - ((R : ℝ) - 1) / ((R : ℝ) + 1)) * 100) := by
  obtain ⟨n, hn⟩ : ∃ n, chunkCount R C = n + 1 :=
    ⟨chunkCount R C - 1, by have := chunkCount_pos R C hR hC; omega⟩
  have hge : R ≤ (n + 1) * C := by
    have h := chunkCount_mul_ge R C hC
    rw [hn] at h
    exact h
  have hmin : min ((n + 1) * C) R = R := min_eq_right hge
  have hcast : ((R - 1 : ℕ) : ℝ) = (R : ℝ) - 1 := by
    push_cast [Nat.cast_sub hR]
    ring
  unfold progressList
  rw [hn, List.range_succ, List.map_append, List.map_cons, List.map_nil,
    List.getLast?_concat, hmin, hcast]

end DataSelector

namespace Claims

/-- C8 counterexample: for the file with 2 data rows processed with chunk
size 1, the final progress value data_selector yields is
100 - (1 - (2-1)/(2+1)) * 100 = 100/3, not 100: `lines` counts the header
line as well, so `chunk.index[-1] / lines` never reaches 1. -/
theorem C8_final_not_100 :
    (DataSelector.progressList 2 1).getLast? =
      some (100 - (1 - (((2 : ℕ) : ℝ) - 1) / (((2 : ℕ) : ℝ) + 1)) * 100) ∧
    (100 - (1 - (((2 : ℕ) : ℝ) - 1) / (((2 : ℕ) : ℝ) + 1)) * 100) = 100 / 3 ∧
    (100 / 3 : ℝ) ≠ 100 := by
  refine ⟨DataSelector.progressList_getLast 2 1 (by norm_num) le_rfl, ?_, ?_⟩
  · norm_num
  · norm_num

open DataSelector in
/-- C8 amended: for every file with at least one data row and every chunk
size, the progress values yielded by data_selector are monotonically
increasing and all lie in [0, 100]; but the final yielded value is
100 - (1 - (R-1)/(R+1)) * 100 = 100 (R-1)/(R+1), which is strictly less
than 100 (R is the number of data rows; the line count used as the
denominator also counts the header line, and the last 0-based row index is
R - 1). -/
theorem C8_amended (R C : ℕ) (hR : 1 ≤ R) (hC : 1 ≤ C) :
    List.Pairwise (fun a b => a ≤ b) (progressList R C) ∧
    (∀ v ∈ progressList R C, 0 ≤ v ∧ v ≤ 100) ∧
    (progressList R C).getLast? =
      some (100 - (1 - ((R : ℝ) - 1) / ((R : ℝ) + 1)) * 100) ∧
    100 - (1 - ((R : ℝ) - 1) / ((R : ℝ) + 1)) * 100 < 100 := by
  refine ⟨?_, ?_, progressList_getLast R C hR hC, ?_⟩
  · unfold progressList
    exact List.Pairwise.map _
      (fun a b hab => progress_formula_mono R C a b (le_of_lt hab))
      (List.pairwise_lt_range _)
  · intro v hv
    unfold progressList at hv
    obtain ⟨k, hk, rfl⟩ := List.mem_map.mp hv
    exact progress_formula_bounds R C k hR
  · have hpos : (0 : ℝ) < (R : ℝ) + 1 := by positivity
    have h1 : ((R : ℝ) - 1) / ((R : ℝ) + 1) < 1 := by
      rw [div_lt_one hpos]
      linarith
    linarith

/-- Witness for C8's amended claim at R = 2 data rows, chunk size C = 1. -/
theorem C8_amended_witness :
    ((1 : ℕ) ≤ 2 ∧ (1 : ℕ) ≤ 1) ∧
    (List.Pairwise (fun a b => a ≤ b) (DataSelector.progressList 2 1) ∧
     (∀ v ∈ DataSelector.progressList 2 1, 0 ≤ v ∧ v ≤ 100) ∧
     (DataSelector.progressList 2 1).getLast? =
       some (100 - (1 - (((2 : ℕ) : ℝ) - 1) / (((2 : ℕ) : ℝ) + 1)) * 100) ∧
     100 - (1 - (((2 : ℕ) : ℝ) - 1) / (((2 : ℕ) : ℝ) + 1)) * 100 < 100) :=
  ⟨⟨by norm_num, le_rfl⟩, C8_amended 2 1 (by norm_num) le_rfl⟩

end Claims
